import Mathlib

/-!
Verification of the checkpoint/recovery engine of the repository
(`src/the_app/sdk/src/autonomi/checkpoint.py`), shallowly embedded in Lean.

Modelling conventions:
* Python `datetime.utcnow().isoformat()` timestamps are modelled as `Nat`
  values passed explicitly (`now`) to every operation that reads the clock;
  one `now` stands for all clock reads inside a single operation.
* JSON-representable Python payloads (`Dict[str, Any]`) are modelled by the
  inductive `Json` / `JsonObj` below.  `json.dumps` followed by `json.loads`
  is the identity on such values, and `json.dumps` never returns the empty
  string, so the serialized text column of the SQLite backend is modelled by
  the parsed value it decodes to, and SQL-value truthiness of a serialized
  column coincides with the column being non-NULL.
* Python dictionaries are modelled as association lists in insertion order;
  assignment to an existing key replaces the stored value in place.
* Stateful methods become pure functions from the old state to the new state
  (plus their return value).
-/

namespace Autonomi

/-- JSON-representable values, modelling the payloads stored in
`input_data`, `output_data` and `metadata`. -/
inductive Json where
  | null
  | bool (b : Bool)
  | num (n : Int)
  | str (s : String)
  | arr (elems : List Json)
  | obj (fields : List (String × Json))

/-- A JSON object (Python `Dict[str, Any]` payload), as a field list. -/
abbrev JsonObj := List (String × Json)

/-- Python truthiness of an `Optional[Dict]`: `None` and the empty dict are
falsy, a non-empty dict is truthy. -/
def pyTruthy : Option JsonObj → Bool
  | none => false
  | some o => !o.isEmpty

/-- `class CheckpointStatus(str, Enum)` from checkpoint.py. -/
inductive CheckpointStatus where
  | pending
  | in_progress
  | completed
  | failed
  | recovered
deriving DecidableEq

/-- The `.value` string tag of a status. -/
def CheckpointStatus.value : CheckpointStatus → String
  | .pending => "pending"
  | .in_progress => "in_progress"
  | .completed => "completed"
  | .failed => "failed"
  | .recovered => "recovered"

/-- `CheckpointStatus(tag)`: decode a status tag, `none` models the
`ValueError` raised on an unknown tag. -/
def CheckpointStatus.ofValue : String → Option CheckpointStatus
  | "pending" => some .pending
  | "in_progress" => some .in_progress
  | "completed" => some .completed
  | "failed" => some .failed
  | "recovered" => some .recovered
  | _ => none

/-- `class RecoveryMode(str, Enum)` from checkpoint.py. -/
inductive RecoveryMode where
  | resume_from_last
  | restart_task
  | skip_failed
  | manual
deriving DecidableEq

/-- The `Checkpoint` dataclass.  `created_at` / `updated_at` are modelled as
`Nat` timestamps, `error` as `Option String`, payloads as `JsonObj`. -/
structure Checkpoint where
  id : String
  workflow_id : String
  step_name : String
  step_index : Nat
  status : CheckpointStatus
  input_data : JsonObj
  output_data : Option JsonObj := none
  error : Option String := none
  created_at : Nat
  updated_at : Nat
  metadata : JsonObj := []

/-! ### MemoryCheckpointBackend

The in-memory backend holds a Python dict keyed by checkpoint id, modelled
as an association list in insertion order: assignment to an existing key
replaces the value in place, assignment to a fresh key appends. -/

/-- Python dict assignment `d[k] = v`: replace in place, or append. -/
def dictInsert (k : String) (v : Checkpoint) :
    List (String × Checkpoint) → List (String × Checkpoint)
  | [] => [(k, v)]
  | (k', v') :: rest =>
      if k' = k then (k, v) :: rest else (k', v') :: dictInsert k v rest

/-- `MemoryCheckpointBackend`: the `_checkpoints` dict. -/
structure MemoryCheckpointBackend where
  checkpoints : List (String × Checkpoint)

namespace MemoryCheckpointBackend

/-- The dict's values, in insertion order. -/
def values (b : MemoryCheckpointBackend) : List Checkpoint :=
  b.checkpoints.map Prod.snd

/-- `save`: set `updated_at` to now, then upsert under `checkpoint.id`.
Returns the new state together with the (mutated) checkpoint object. -/
def save (b : MemoryCheckpointBackend) (checkpoint : Checkpoint) (now : Nat) :
    MemoryCheckpointBackend × Checkpoint :=
  let cp := { checkpoint with updated_at := now }
  (⟨dictInsert cp.id cp b.checkpoints⟩, cp)

/-- `load`: `self._checkpoints.get(checkpoint_id)`. -/
def load (b : MemoryCheckpointBackend) (checkpoint_id : String) :
    Option Checkpoint :=
  (b.checkpoints.find? (fun kv => kv.1 == checkpoint_id)).map Prod.snd

/-- `list_workflow_checkpoints`: filter the dict's values by workflow id,
then `sorted(..., key=lambda x: x.step_index)` (a stable sort, modelled by
insertion sort). -/
def list_workflow_checkpoints (b : MemoryCheckpointBackend)
    (workflow_id : String) : List Checkpoint :=
  List.insertionSort (fun x y => x.step_index ≤ y.step_index)
    (b.values.filter (fun cp => cp.workflow_id == workflow_id))

/-- `get_last_checkpoint`: `checkpoints[-1] if checkpoints else None`. -/
def get_last_checkpoint (b : MemoryCheckpointBackend)
    (workflow_id : String) : Option Checkpoint :=
  (b.list_workflow_checkpoints workflow_id).getLast?

/-- The ids collected by `delete_workflow_checkpoints` before deleting. -/
def to_delete (b : MemoryCheckpointBackend) (workflow_id : String) :
    List String :=
  (b.checkpoints.filter (fun kv => kv.2.workflow_id == workflow_id)).map
    Prod.fst

/-- `delete_workflow_checkpoints`: collect the ids of entries whose value
matches the workflow, delete those keys, return how many ids were
collected. -/
def delete_workflow_checkpoints (b : MemoryCheckpointBackend)
    (workflow_id : String) : MemoryCheckpointBackend × Nat :=
  let ids := b.to_delete workflow_id
  (⟨b.checkpoints.filter (fun kv => !ids.contains kv.1)⟩, ids.length)

/-- `get_incomplete_workflows`: the set of workflow ids owning at least one
`PENDING` or `IN_PROGRESS` checkpoint.  Python returns `list(set)` in
arbitrary order; the model returns the deduplicated list. -/
def get_incomplete_workflows (b : MemoryCheckpointBackend) : List String :=
  ((b.values.filter (fun cp =>
      decide (cp.status = .pending ∨ cp.status = .in_progress))).map
    (fun cp => cp.workflow_id)).dedup

/-- Reachable-state invariant of the Python dict: keys are distinct. -/
def WF (b : MemoryCheckpointBackend) : Prop :=
  (b.checkpoints.map Prod.fst).Nodup

end MemoryCheckpointBackend

/-! ### SQLiteCheckpointBackend

One row per checkpoint, keyed by `id` (PRIMARY KEY, `INSERT OR REPLACE`).
The serialized text columns `input_data` / `output_data` / `metadata` are
modelled by the JSON value the stored text decodes to (see the header
note): a NULL column is `none`, a stored `json.dumps` text is `some` of its
parsed value. -/

/-- One row of the `checkpoints` table. -/
structure SQLiteRow where
  id : String
  workflow_id : String
  step_name : String
  step_index : Nat
  status : String
  input_data : JsonObj
  output_data : Option JsonObj
  error : Option String
  created_at : Nat
  updated_at : Nat
  metadata : Option JsonObj

/-- `INSERT OR REPLACE` keyed by the `id` PRIMARY KEY. -/
def rowInsert (row : SQLiteRow) : List SQLiteRow → List SQLiteRow
  | [] => [row]
  | r :: rest =>
      if r.id = row.id then row :: rest else r :: rowInsert row rest

/-- `SQLiteCheckpointBackend`: the `checkpoints` table. -/
structure SQLiteCheckpointBackend where
  rows : List SQLiteRow

namespace SQLiteCheckpointBackend

/-- `save`: set `updated_at`, then `INSERT OR REPLACE` the row.  The
`output_data` column is `json.dumps(...) if checkpoint.output_data else
None` — NULL whenever the payload is Python-falsy (absent or empty);
`input_data` and `metadata` are dumped unconditionally.  Returns the new
state together with the (mutated) checkpoint object. -/
def save (db : SQLiteCheckpointBackend) (checkpoint : Checkpoint)
    (now : Nat) : SQLiteCheckpointBackend × Checkpoint :=
  let cp := { checkpoint with updated_at := now }
  let row : SQLiteRow :=
    { id := cp.id
      workflow_id := cp.workflow_id
      step_name := cp.step_name
      step_index := cp.step_index
      status := cp.status.value
      input_data := cp.input_data
      output_data :=
        if pyTruthy cp.output_data then some (cp.output_data.getD []) else none
      error := cp.error
      created_at := cp.created_at
      updated_at := cp.updated_at
      metadata := some cp.metadata }
  (⟨rowInsert row db.rows⟩, cp)

/-- `_row_to_checkpoint`: decode a row.  `none` models the `ValueError`
raised by `CheckpointStatus(...)` on an unknown status tag.  A NULL
`output_data` column decodes to `None`; a NULL `metadata` column decodes to
the empty dict (a stored `json.dumps` text is never the empty string, so
string truthiness is NULL-ness). -/
def row_to_checkpoint (row : SQLiteRow) : Option Checkpoint :=
  match CheckpointStatus.ofValue row.status with
  | none => none
  | some status =>
      some
        { id := row.id
          workflow_id := row.workflow_id
          step_name := row.step_name
          step_index := row.step_index
          status := status
          input_data := row.input_data
          output_data := row.output_data
          error := row.error
          created_at := row.created_at
          updated_at := row.updated_at
          metadata := row.metadata.getD [] }

/-- `load`: `SELECT * FROM checkpoints WHERE id = ?`, decode the row if
one was found. -/
def load (db : SQLiteCheckpointBackend) (checkpoint_id : String) :
    Option Checkpoint :=
  match db.rows.find? (fun r => r.id == checkpoint_id) with
  | some row => row_to_checkpoint row
  | none => none

/-- The rows returned by
`SELECT * FROM checkpoints WHERE workflow_id = ? ORDER BY step_index`. -/
def query_workflow_rows (db : SQLiteCheckpointBackend)
    (workflow_id : String) : List SQLiteRow :=
  List.insertionSort (fun x y => x.step_index ≤ y.step_index)
    (db.rows.filter (fun r => r.workflow_id == workflow_id))

/-- `list_workflow_checkpoints`: decode every row of the workflow query. -/
def list_workflow_checkpoints (db : SQLiteCheckpointBackend)
    (workflow_id : String) : List (Option Checkpoint) :=
  (db.query_workflow_rows workflow_id).map row_to_checkpoint

/-- The row returned by `SELECT * FROM checkpoints WHERE workflow_id = ?
ORDER BY step_index DESC LIMIT 1`. -/
def get_last_row (db : SQLiteCheckpointBackend) (workflow_id : String) :
    Option SQLiteRow :=
  (List.insertionSort (fun x y => y.step_index ≤ x.step_index)
    (db.rows.filter (fun r => r.workflow_id == workflow_id))).head?

/-- `delete_workflow_checkpoints`: `DELETE FROM checkpoints WHERE
workflow_id = ?`; `rowcount` is the number of deleted rows. -/
def delete_workflow_checkpoints (db : SQLiteCheckpointBackend)
    (workflow_id : String) : SQLiteCheckpointBackend × Nat :=
  ((⟨db.rows.filter (fun r => !(r.workflow_id == workflow_id))⟩ :
      SQLiteCheckpointBackend),
   (db.rows.filter (fun r => r.workflow_id == workflow_id)).length)

/-- `get_incomplete_workflows`: `SELECT DISTINCT workflow_id FROM
checkpoints WHERE status IN ('pending', 'in_progress')`. -/
def get_incomplete_workflows (db : SQLiteCheckpointBackend) : List String :=
  ((db.rows.filter (fun r =>
      r.status == "pending" || r.status == "in_progress")).map
    (fun r => r.workflow_id)).dedup

end SQLiteCheckpointBackend

/-! ### Checkpointer

The Checkpointer's operations, instantiated with the memory backend model
(the Checkpointer never branches on the backend type; every operation only
calls the six-method backend contract). -/

namespace Checkpointer

/-- `generate_checkpoint_id`: the f-string
`"{workflow_id}_step_{step_index}"`, with `Nat.repr` modelling Python's
decimal rendering of the non-negative step index. -/
def generate_checkpoint_id (workflow_id : String) (step_index : Nat) :
    String :=
  workflow_id ++ "_step_" ++ Nat.repr step_index

/-- `checkpoint_start`: construct a fresh `IN_PROGRESS` checkpoint (both of
its timestamps are the construction time) and save it.  `metadata or \x7b\x7d`
maps an absent or empty metadata argument to the empty dict. -/
def checkpoint_start (b : MemoryCheckpointBackend) (workflow_id : String)
    (step_name : String) (step_index : Nat) (input_data : JsonObj)
    (metadata : Option JsonObj) (now : Nat) :
    MemoryCheckpointBackend × Checkpoint :=
  let checkpoint : Checkpoint :=
    { id := generate_checkpoint_id workflow_id step_index
      workflow_id := workflow_id
      step_name := step_name
      step_index := step_index
      status := .in_progress
      input_data := input_data
      output_data := none
      error := none
      created_at := now
      updated_at := now
      metadata := metadata.getD [] }
  b.save checkpoint now

/-- `checkpoint_complete`: set status `COMPLETED` and the output, save. -/
def checkpoint_complete (b : MemoryCheckpointBackend)
    (checkpoint : Checkpoint) (output_data : JsonObj) (now : Nat) :
    MemoryCheckpointBackend × Checkpoint :=
  b.save { checkpoint with status := .completed, output_data := some output_data } now

/-- `checkpoint_failed`: set status `FAILED` and the error message, save. -/
def checkpoint_failed (b : MemoryCheckpointBackend)
    (checkpoint : Checkpoint) (error : String) (now : Nat) :
    MemoryCheckpointBackend × Checkpoint :=
  b.save { checkpoint with status := .failed, error := some error } now

/-- `mark_recovered`: set status `RECOVERED`, save. -/
def mark_recovered (b : MemoryCheckpointBackend) (checkpoint : Checkpoint)
    (now : Nat) : MemoryCheckpointBackend × Checkpoint :=
  b.save { checkpoint with status := .recovered } now

/-- Predicate of the `RESTART_TASK` scan: status `FAILED` or
`IN_PROGRESS`. -/
def retryPred (cp : Checkpoint) : Bool :=
  decide (cp.status = .failed ∨ cp.status = .in_progress)

/-- `get_recovery_point`: the four-branch recovery algorithm over the
ascending checkpoint list of the workflow. -/
def get_recovery_point (recovery_mode : RecoveryMode)
    (b : MemoryCheckpointBackend) (workflow_id : String) :
    Option Checkpoint :=
  if recovery_mode = .manual then none
  else
    let checkpoints := b.list_workflow_checkpoints workflow_id
    if checkpoints.isEmpty then none
    else if recovery_mode = .resume_from_last then checkpoints.getLast?
    else if recovery_mode = .restart_task then
      match checkpoints.reverse.find? retryPred with
      | some cp => some cp
      | none => checkpoints.getLast?
    else if recovery_mode = .skip_failed then
      checkpoints.reverse.find? (fun cp => decide (cp.status = .completed))
    else checkpoints.getLast?

/-- `get_incomplete_workflows` delegates to the backend. -/
def get_incomplete_workflows (b : MemoryCheckpointBackend) : List String :=
  b.get_incomplete_workflows

/-- `list_checkpoints` delegates to the backend. -/
def list_checkpoints (b : MemoryCheckpointBackend) (workflow_id : String) :
    List Checkpoint :=
  b.list_workflow_checkpoints workflow_id

/-- `cleanup_workflow` delegates to the backend's
`delete_workflow_checkpoints`. -/
def cleanup_workflow (b : MemoryCheckpointBackend) (workflow_id : String) :
    MemoryCheckpointBackend × Nat :=
  b.delete_workflow_checkpoints workflow_id

end Checkpointer

/-! ### CheckpointContext -/

/-- The mutable state of a `CheckpointContext`: the checkpoint created on
entry (if entry ran) and the output recorded by `set_output`. -/
structure CheckpointContext where
  checkpoint : Option Checkpoint := none
  output : Option JsonObj := none

namespace CheckpointContext

/-- `__enter__`: start the checkpoint and remember it. -/
def enter (b : MemoryCheckpointBackend) (workflow_id : String)
    (step_name : String) (step_index : Nat) (input_data : JsonObj)
    (metadata : Option JsonObj) (now : Nat) :
    MemoryCheckpointBackend × CheckpointContext :=
  let (b', cp) := Checkpointer.checkpoint_start b workflow_id step_name
    step_index input_data metadata now
  (b', { checkpoint := some cp, output := none })

/-- `__exit__`: finalize the checkpoint along the exit path taken.
`exc = some msg` models an exceptional exit whose `str(exc_val)` is `msg`.
The returned `Bool` is the context manager's return value: `true` would
suppress the exception, `false` lets it propagate. -/
def exit (ctx : CheckpointContext) (exc : Option String)
    (b : MemoryCheckpointBackend) (now : Nat) :
    MemoryCheckpointBackend × Bool :=
  match ctx.checkpoint with
  | none => (b, false)
  | some cp =>
      match exc with
      | some msg => ((Checkpointer.checkpoint_failed b cp msg now).1, false)
      | none =>
          match ctx.output with
          | some out =>
              ((Checkpointer.checkpoint_complete b cp out now).1, false)
          | none => ((Checkpointer.checkpoint_complete b cp [] now).1, false)

/-- `__aexit__` delegates to `__exit__` unchanged. -/
def aexit (ctx : CheckpointContext) (exc : Option String)
    (b : MemoryCheckpointBackend) (now : Nat) :
    MemoryCheckpointBackend × Bool :=
  ctx.exit exc b now

end CheckpointContext

/-! ### Decimal digits (for checkpoint-id injectivity)

Facts about `Nat.toDigitsCore`, the core of `Nat.repr`, which models
Python's decimal rendering of the step index. -/

/-- The numeric value of a decimal digit character. -/
def digitVal (c : Char) : Nat := c.toNat - 48

/-- The number denoted by a big-endian list of decimal digit characters. -/
def decVal (l : List Char) : Nat :=
  l.foldl (fun a c => 10 * a + digitVal c) 0

/-! ### Invariants and concrete inputs used by the claims -/

/-- The data-model contract: `error` is populated (non-absent) if and only
if the status is `FAILED`. -/
def ErrorIffFailed (cp : Checkpoint) : Prop :=
  cp.error ≠ none ↔ cp.status = .failed

/-- A checkpoint whose `output_data` is the *empty* map (Python `\x7b\x7d`). -/
def emptyOutputCheckpoint : Checkpoint :=
  { id := "w_step_0"
    workflow_id := "w"
    step_name := "s"
    step_index := 0
    status := .completed
    input_data := []
    output_data := some []
    error := none
    created_at := 0
    updated_at := 0
    metadata := [] }

/-- A `FAILED` checkpoint with a populated error: it satisfies the
`ErrorIffFailed` contract. -/
def failedCheckpoint : Checkpoint :=
  { id := "w_step_0"
    workflow_id := "w"
    step_name := "s"
    step_index := 0
    status := .failed
    input_data := []
    output_data := none
    error := some "boom"
    created_at := 0
    updated_at := 0
    metadata := [] }

/-- An `IN_PROGRESS` checkpoint with no error. -/
def inProgressCheckpoint : Checkpoint :=
  { id := "w_step_1"
    workflow_id := "w"
    step_name := "s"
    step_index := 1
    status := .in_progress
    input_data := []
    output_data := none
    error := none
    created_at := 0
    updated_at := 0
    metadata := [] }

/-- The spec's recovery scenario: step 0 `COMPLETED`, step 1 `FAILED`. -/
def scenarioBackend : MemoryCheckpointBackend :=
  ⟨[("w_step_0",
     { id := "w_step_0"
       workflow_id := "w"
       step_name := "s0"
       step_index := 0
       status := .completed
       input_data := []
       output_data := some []
       error := none
       created_at := 0
       updated_at := 0
       metadata := [] }),
    ("w_step_1",
     { id := "w_step_1"
       workflow_id := "w"
       step_name := "s1"
       step_index := 1
       status := .failed
       input_data := []
       output_data := none
       error := some "e"
       created_at := 1
       updated_at := 1
       metadata := [] })]⟩

/-! ### Helper lemmas -/

instance : IsTotal Checkpoint (fun x y => x.step_index ≤ y.step_index) :=
  ⟨fun a b => Nat.le_total a.step_index b.step_index⟩

instance : IsTrans Checkpoint (fun x y => x.step_index ≤ y.step_index) :=
  ⟨fun _ _ _ h h' => Nat.le_trans h h'⟩

instance : IsTotal SQLiteRow (fun x y => x.step_index ≤ y.step_index) :=
  ⟨fun a b => Nat.le_total a.step_index b.step_index⟩

instance : IsTrans SQLiteRow (fun x y => x.step_index ≤ y.step_index) :=
  ⟨fun _ _ _ h h' => Nat.le_trans h h'⟩

instance : IsTotal SQLiteRow (fun x y => y.step_index ≤ x.step_index) :=
  ⟨fun a b => Nat.le_total b.step_index a.step_index⟩

instance : IsTrans SQLiteRow (fun x y => y.step_index ≤ x.step_index) :=
  ⟨fun _ _ _ h h' => Nat.le_trans h' h⟩

theorem mem_keys_dictInsert {x k : String} {v : Checkpoint} :
    ∀ {l : List (String × Checkpoint)},
      x ∈ (dictInsert k v l).map Prod.fst →
      x = k ∨ x ∈ l.map Prod.fst := by
  intro l
  induction l with
  | nil => simp [dictInsert]
  | cons e t ih =>
      by_cases he : e.1 = k
      · cases e
        simp_all [dictInsert]
      · cases e with
        | mk k' v' =>
          simp only [dictInsert, if_neg he, List.map_cons, List.mem_cons]
          rintro (rfl | hx)
          · exact Or.inr (by simp)
          · rcases ih hx with h | h
            · exact Or.inl h
            · exact Or.inr (by simp [h])

theorem nodup_keys_dictInsert {k : String} {v : Checkpoint}
    {l : List (String × Checkpoint)} (h : (l.map Prod.fst).Nodup) :
    ((dictInsert k v l).map Prod.fst).Nodup := by
  induction l with
  | nil => simp [dictInsert]
  | cons e t ih =>
      cases e with
      | mk k' v' =>
        simp only [List.map_cons, List.nodup_cons] at h
        by_cases he : k' = k
        · subst he
          simpa [dictInsert, List.nodup_cons] using h
        · simp only [dictInsert, if_neg he, List.map_cons, List.nodup_cons]
          refine ⟨fun hx => ?_, ih h.2⟩
          rcases mem_keys_dictInsert hx with rfl | hx
          · exact he rfl
          · exact h.1 hx

theorem filter_key_eq_nil_of_not_mem {k : String}
    {l : List (String × Checkpoint)} (h : k ∉ l.map Prod.fst) :
    l.filter (fun kv => kv.1 == k) = [] := by
  induction l with
  | nil => rfl
  | cons e t ih =>
      simp only [List.map_cons, List.mem_cons, not_or] at h
      have : (e.1 == k) = false :=
        beq_false_of_ne (fun hh => h.1 hh.symm)
      simp [List.filter_cons, this, ih h.2]

theorem filter_dictInsert_self {k : String} {v : Checkpoint}
    {l : List (String × Checkpoint)} (h : (l.map Prod.fst).Nodup) :
    (dictInsert k v l).filter (fun kv => kv.1 == k) = [(k, v)] := by
  induction l with
  | nil => simp [dictInsert]
  | cons e t ih =>
      cases e with
      | mk k' v' =>
        simp only [List.map_cons, List.nodup_cons] at h
        by_cases he : k' = k
        · subst he
          simp [dictInsert, List.filter_cons,
            filter_key_eq_nil_of_not_mem h.1]
        · have : (k' == k) = false := by simpa [beq_iff_eq] using he
          simp [dictInsert, if_neg he, List.filter_cons, this, ih h.2]

theorem find?_dictInsert_self {k : String} {v : Checkpoint} :
    ∀ (l : List (String × Checkpoint)),
      (dictInsert k v l).find? (fun kv => kv.1 == k) = some (k, v) := by
  intro l
  induction l with
  | nil => simp [dictInsert]
  | cons e t ih =>
      by_cases he : e.1 = k
      · simp [dictInsert, he, List.find?_cons]
      · have : (e.1 == k) = false := by simpa [beq_iff_eq] using he
        simp [dictInsert, if_neg he, List.find?_cons, this, ih]

theorem find?_rowInsert_self {row : SQLiteRow} :
    ∀ (l : List SQLiteRow),
      (rowInsert row l).find? (fun r => r.id == row.id) = some row := by
  intro l
  induction l with
  | nil => simp [rowInsert]
  | cons e t ih =>
      by_cases he : e.id = row.id
      · simp [rowInsert, he, List.find?_cons]
      · have : (e.id == row.id) = false := by simpa [beq_iff_eq] using he
        simp [rowInsert, if_neg he, List.find?_cons, this, ih]

theorem find?_rowInsert_key (row : SQLiteRow) (k : String)
    (hk : row.id = k) (l : List SQLiteRow) :
    (rowInsert row l).find? (fun r => r.id == k) = some row := by
  subst hk
  exact find?_rowInsert_self l

theorem find?_dictInsert_key (v : Checkpoint) (k k' : String)
    (hk : k = k') (l : List (String × Checkpoint)) :
    (dictInsert k v l).find? (fun kv => kv.1 == k') = some (k, v) := by
  subst hk
  exact find?_dictInsert_self l

theorem find?_dictInsert_ne {k k' : String} (h : k' ≠ k) (v : Checkpoint) :
    ∀ (l : List (String × Checkpoint)),
      (dictInsert k v l).find? (fun kv => kv.1 == k') =
        l.find? (fun kv => kv.1 == k') := by
  have hkk : (k == k') = false := beq_false_of_ne (fun hh => h hh.symm)
  intro l
  induction l with
  | nil => simp [dictInsert, List.find?_cons, hkk]
  | cons e t ih =>
      by_cases he : e.1 = k
      · have he' : (e.1 == k') = false := by
          rw [he]; exact hkk
        simp [dictInsert, he, List.find?_cons, hkk, he']
      · simp only [dictInsert, if_neg he]
        cases hc : (e.1 == k') with
        | true => simp [List.find?_cons, hc]
        | false => simp [List.find?_cons, hc, ih]

theorem ofValue_value (s : CheckpointStatus) :
    CheckpointStatus.ofValue s.value = some s := by
  cases s <;> rfl

theorem getLast?_some_of_ne_nil {α : Type} {l : List α} (h : l ≠ []) :
    ∃ c, l.getLast? = some c := by
  cases hl : l.getLast? with
  | none => exact absurd (List.getLast?_eq_none_iff.mp hl) h
  | some c => exact ⟨c, rfl⟩

theorem eq_of_mem_of_nodup_keys {l : List (String × Checkpoint)}
    (h : (l.map Prod.fst).Nodup) {e e' : String × Checkpoint}
    (he : e ∈ l) (he' : e' ∈ l) (hk : e.1 = e'.1) : e = e' := by
  induction l with
  | nil => cases he
  | cons a t ih =>
      simp only [List.map_cons, List.nodup_cons] at h
      cases List.mem_cons.mp he with
      | inl h1 =>
          cases List.mem_cons.mp he' with
          | inl h2 => rw [h1, h2]
          | inr h2 =>
              exfalso
              apply h.1
              rw [← h1, hk]
              exact List.mem_map_of_mem Prod.fst h2
      | inr h1 =>
          cases List.mem_cons.mp he' with
          | inl h2 =>
              exfalso
              apply h.1
              rw [← h2, ← hk]
              exact List.mem_map_of_mem Prod.fst h1
          | inr h2 => exact ih h.2 h1 h2

/-- In a list sorted descending under the measure `f`, the first match of
`find?` has the greatest measure among all matches. -/
theorem find?_measure_max {α : Type} (f : α → Nat) {p : α → Bool} :
    ∀ {l : List α},
      l.Pairwise (fun a b => f b ≤ f a) →
      ∀ {r : α}, l.find? p = some r →
        ∀ d ∈ l, p d = true → f d ≤ f r := by
  intro l
  induction l with
  | nil => intro _ r hr; cases hr
  | cons a t ih =>
      intro hp r hr d hd hpd
      rcases List.pairwise_cons.mp hp with ⟨ha, ht⟩
      by_cases hpa : p a = true
      · rw [List.find?_cons_of_pos _ hpa] at hr
        cases hr
        rcases List.mem_cons.mp hd with rfl | hd
        · exact Nat.le_refl _
        · exact ha d hd
      · rw [List.find?_cons_of_neg _ (by simpa using hpa)] at hr
        rcases List.mem_cons.mp hd with rfl | hd
        · exact absurd hpd hpa
        · exact ih ht hr d hd hpd

/-- In a list sorted descending under the measure `f`, the head has the
greatest measure. -/
theorem head?_measure_max {α : Type} (f : α → Nat) {l : List α}
    (hp : l.Pairwise (fun a b => f b ≤ f a))
    {c : α} (hc : l.head? = some c) :
    ∀ d ∈ l, f d ≤ f c := by
  cases l with
  | nil => cases hc
  | cons a t =>
      cases hc
      rcases List.pairwise_cons.mp hp with ⟨ha, _⟩
      intro d hd
      rcases List.mem_cons.mp hd with rfl | hd
      · exact Nat.le_refl _
      · exact ha d hd

/-- The checkpoint list of a workflow is sorted ascending by step index. -/
theorem list_workflow_checkpoints_pairwise (b : MemoryCheckpointBackend)
    (workflow_id : String) :
    (b.list_workflow_checkpoints workflow_id).Pairwise
      (fun x y => x.step_index ≤ y.step_index) :=
  List.sorted_insertionSort _ _

/-- The checkpoint list of a workflow is a permutation of the stored
checkpoints of that workflow. -/
theorem list_workflow_checkpoints_perm (b : MemoryCheckpointBackend)
    (workflow_id : String) :
    (b.list_workflow_checkpoints workflow_id).Perm
      (b.values.filter (fun cp => cp.workflow_id == workflow_id)) :=
  List.perm_insertionSort _ _

/-- `getLast?` of the ascending checkpoint list is a maximal-step-index
element. -/
theorem getLast?_step_index_max {b : MemoryCheckpointBackend}
    {workflow_id : String} {c : Checkpoint}
    (hc : (b.list_workflow_checkpoints workflow_id).getLast? = some c) :
    c ∈ b.list_workflow_checkpoints workflow_id ∧
      ∀ d ∈ b.list_workflow_checkpoints workflow_id,
        d.step_index ≤ c.step_index := by
  have hrev : (b.list_workflow_checkpoints workflow_id).reverse.head? =
      some c := by
    rw [List.head?_reverse]
    exact hc
  have hp : (b.list_workflow_checkpoints workflow_id).reverse.Pairwise
      (fun a b => b.step_index ≤ a.step_index) := by
    rw [List.pairwise_reverse]
    exact list_workflow_checkpoints_pairwise b workflow_id
  have hmem : c ∈ (b.list_workflow_checkpoints workflow_id).reverse := by
    cases hl : (b.list_workflow_checkpoints workflow_id).reverse with
    | nil => rw [hl] at hrev; cases hrev
    | cons a t => rw [hl] at hrev; cases hrev; exact List.mem_cons_self _ _
  refine ⟨List.mem_reverse.mp hmem, fun d hd => ?_⟩
  exact head?_measure_max (fun x => x.step_index) hp hrev d
    (List.mem_reverse.mpr hd)

theorem digitChar_isDigit {m : Nat} (h : m < 10) :
    (Nat.digitChar m).isDigit = true := by
  interval_cases m <;> decide

theorem digitVal_digitChar {m : Nat} (h : m < 10) :
    digitVal (Nat.digitChar m) = m := by
  interval_cases m <;> decide

theorem toDigitsCore_append :
    ∀ (fuel n : Nat) (acc : List Char),
      Nat.toDigitsCore 10 fuel n acc =
        Nat.toDigitsCore 10 fuel n [] ++ acc := by
  intro fuel
  induction fuel with
  | zero => intro n acc; rfl
  | succ f ih =>
      intro n acc
      simp only [Nat.toDigitsCore]
      by_cases h : n / 10 = 0
      · simp [h]
      · rw [if_neg h, if_neg h,
          ih (n / 10) (Nat.digitChar (n % 10) :: acc),
          ih (n / 10) [Nat.digitChar (n % 10)], List.append_assoc,
          List.singleton_append]

theorem toDigitsCore_digits :
    ∀ (fuel n : Nat) (acc : List Char),
      (∀ c ∈ acc, c.isDigit = true) →
      ∀ c ∈ Nat.toDigitsCore 10 fuel n acc, c.isDigit = true := by
  intro fuel
  induction fuel with
  | zero => intro n acc hacc; exact hacc
  | succ f ih =>
      intro n acc hacc
      simp only [Nat.toDigitsCore]
      have hd : (Nat.digitChar (n % 10)).isDigit = true :=
        digitChar_isDigit (Nat.mod_lt _ (by decide))
      by_cases h : n / 10 = 0
      · rw [if_pos h]
        intro c hc
        rcases List.mem_cons.mp hc with rfl | hc
        · exact hd
        · exact hacc c hc
      · rw [if_neg h]
        apply ih
        intro c hc
        rcases List.mem_cons.mp hc with rfl | hc
        · exact hd
        · exact hacc c hc

theorem decVal_toDigitsCore :
    ∀ (fuel n : Nat), n < fuel →
      decVal (Nat.toDigitsCore 10 fuel n []) = n := by
  intro fuel
  induction fuel with
  | zero => intro n h; omega
  | succ f ih =>
      intro n h
      simp only [Nat.toDigitsCore]
      have hv : digitVal (Nat.digitChar (n % 10)) = n % 10 :=
        digitVal_digitChar (Nat.mod_lt _ (by decide))
      by_cases h0 : n / 10 = 0
      · rw [if_pos h0]
        simp only [decVal, List.foldl_cons, List.foldl_nil]
        omega
      · rw [if_neg h0, toDigitsCore_append]
        have hih : decVal (Nat.toDigitsCore 10 f (n / 10) []) = n / 10 :=
          ih (n / 10) (by omega)
        simp only [decVal, List.foldl_append, List.foldl_cons,
          List.foldl_nil] at hih ⊢
        rw [hih, hv]
        omega

theorem repr_digits (n : Nat) :
    ∀ c ∈ (Nat.repr n).data, c.isDigit = true :=
  toDigitsCore_digits (n + 1) n [] (by simp)

theorem decVal_repr (n : Nat) : decVal (Nat.repr n).data = n :=
  decVal_toDigitsCore (n + 1) n (Nat.lt_succ_self n)

theorem repr_injective {m n : Nat} (h : Nat.repr m = Nat.repr n) :
    m = n := by
  have := congrArg (fun s => decVal s.data) h
  simpa [decVal_repr] using this

theorem takeWhile_append_eq_left (p : Char → Bool) :
    ∀ (a b : List Char), (∀ c ∈ a, p c = true) →
      (∀ x, b.head? = some x → p x = false) →
      (a ++ b).takeWhile p = a := by
  intro a
  induction a with
  | nil =>
      intro b _ hb
      cases b with
      | nil => rfl
      | cons x bs => simp [List.takeWhile_cons, hb x rfl]
  | cons c cs ih =>
      intro b ha hb
      have hc : p c = true := ha c (List.mem_cons_self _ _)
      simp [List.takeWhile_cons, hc,
        ih b (fun d hd => ha d (List.mem_cons_of_mem _ hd)) hb]

theorem sep_digits_cancel {w1 w2 s1 s2 : List Char}
    (h1 : ∀ c ∈ s1, c.isDigit = true) (h2 : ∀ c ∈ s2, c.isDigit = true)
    (h : w1 ++ "_step_".data ++ s1 = w2 ++ "_step_".data ++ s2) :
    w1 = w2 ∧ s1 = s2 := by
  have hrev : s1.reverse ++ ("_step_".data.reverse ++ w1.reverse) =
      s2.reverse ++ ("_step_".data.reverse ++ w2.reverse) := by
    have := congrArg List.reverse h
    simpa [List.reverse_append, List.append_assoc] using this
  have hhead : ∀ (w : List Char) (x : Char),
      ("_step_".data.reverse ++ w).head? = some x → x.isDigit = false := by
    intro w x hx
    have h' : some '_' = some x := hx
    cases h'
    decide
  have e1 : (s1.reverse ++ ("_step_".data.reverse ++ w1.reverse)).takeWhile
      Char.isDigit = s1.reverse :=
    takeWhile_append_eq_left _ _ _
      (fun c hc => h1 c (List.mem_reverse.mp hc)) (hhead _)
  have e2 : (s2.reverse ++ ("_step_".data.reverse ++ w2.reverse)).takeWhile
      Char.isDigit = s2.reverse :=
    takeWhile_append_eq_left _ _ _
      (fun c hc => h2 c (List.mem_reverse.mp hc)) (hhead _)
  have hs : s1.reverse = s2.reverse := by
    rw [← e1, ← e2, hrev]
  have hs' : s1 = s2 := by
    have := congrArg List.reverse hs
    simpa using this
  refine ⟨?_, hs'⟩
  rw [← hs] at hrev
  have hw : "_step_".data.reverse ++ w1.reverse =
      "_step_".data.reverse ++ w2.reverse :=
    List.append_cancel_left hrev
  have hw' : w1.reverse = w2.reverse := List.append_cancel_left hw
  have := congrArg List.reverse hw'
  simpa using this

theorem mem_of_head? {α : Type} {l : List α} {c : α}
    (h : l.head? = some c) : c ∈ l := by
  cases l with
  | nil => cases h
  | cons a t => cases h; exact List.mem_cons_self _ _

theorem insertionSort_eq_nil_iff {α : Type} (r : α → α → Prop)
    [DecidableRel r] (l : List α) :
    List.insertionSort r l = [] ↔ l = [] := by
  constructor
  · intro h
    have hlen := (List.perm_insertionSort r l).length_eq
    rw [h] at hlen
    simpa [List.length_eq_zero] using hlen.symm
  · intro h
    subst h
    rfl

theorem filter_filter_of_imp {α : Type} (p q : α → Bool)
    (h : ∀ x, q x = true → p x = true) :
    ∀ l : List α, (l.filter p).filter q = l.filter q := by
  intro l
  induction l with
  | nil => rfl
  | cons a t ih =>
      cases hq : q a with
      | true =>
          have hp := h a hq
          simp [List.filter_cons, hp, hq, ih]
      | false =>
          cases hp : p a with
          | true => simp [List.filter_cons, hp, hq, ih]
          | false => simp [List.filter_cons, hp, hq, ih]

/-- After deletion, no stored entry of the deleted workflow remains. -/
theorem delete_filter_matching (b : MemoryCheckpointBackend)
    (wf : String) :
    (b.delete_workflow_checkpoints wf).1.checkpoints.filter
      (fun kv => kv.2.workflow_id == wf) = [] := by
  rw [List.filter_eq_nil_iff]
  intro kv hkv
  obtain ⟨hmem, hcond⟩ := List.mem_filter.mp hkv
  intro hwf
  have hid : kv.1 ∈ b.to_delete wf :=
    List.mem_map_of_mem Prod.fst (List.mem_filter.mpr ⟨hmem, hwf⟩)
  have hc : (b.to_delete wf).contains kv.1 = true := List.elem_iff.mpr hid
  rw [hc] at hcond
  cases hcond

/-- Under distinct keys, deletion is exactly the value-level filter. -/
theorem delete_eq_value_filter (b : MemoryCheckpointBackend) (hwf : b.WF)
    (wf : String) :
    (b.delete_workflow_checkpoints wf).1.checkpoints =
      b.checkpoints.filter (fun kv => !(kv.2.workflow_id == wf)) := by
  simp only [MemoryCheckpointBackend.delete_workflow_checkpoints]
  apply List.filter_congr
  intro kv hkv
  congr 1
  by_cases hm : kv.2.workflow_id = wf
  · have h1 : (b.to_delete wf).contains kv.1 = true := by
      apply List.elem_iff.mpr
      exact List.mem_map_of_mem Prod.fst
        (List.mem_filter.mpr ⟨hkv, by simpa [beq_iff_eq] using hm⟩)
    rw [h1, (by simpa [beq_iff_eq] using hm :
      (kv.2.workflow_id == wf) = true)]
  · have h1 : (b.to_delete wf).contains kv.1 = false := by
      cases hcc : (b.to_delete wf).contains kv.1 with
      | false => rfl
      | true =>
          exfalso
          have hmem : kv.1 ∈ b.to_delete wf := List.elem_iff.mp hcc
          simp only [MemoryCheckpointBackend.to_delete, List.mem_map]
            at hmem
          obtain ⟨kv', hkv', hfst⟩ := hmem
          obtain ⟨hkv'mem, hkv'p⟩ := List.mem_filter.mp hkv'
          have heq : kv' = kv :=
            eq_of_mem_of_nodup_keys hwf hkv'mem hkv hfst
          rw [heq] at hkv'p
          exact hm (by simpa [beq_iff_eq] using hkv'p)
    rw [h1, beq_false_of_ne hm]

/-! ### Claim theorems -/

/-- C9: `generate_checkpoint_id` is a pure deterministic function of the
pair `(workflow_id, step_index)` and is injective over all pairs of an
arbitrary workflow id and a non-negative step index: two ids coincide
exactly when both components coincide, so checkpoint identity is exactly
the pair `(workflow_id, step_index)`. -/
theorem c9_generate_checkpoint_id_injective (w1 w2 : String) (i1 i2 : Nat) :
    Checkpointer.generate_checkpoint_id w1 i1 =
      Checkpointer.generate_checkpoint_id w2 i2 ↔ w1 = w2 ∧ i1 = i2 := by
  constructor
  · intro h
    have hd := congrArg String.data h
    simp only [Checkpointer.generate_checkpoint_id,
      String.data_append] at hd
    obtain ⟨hw, hs⟩ :=
      sep_digits_cancel (repr_digits i1) (repr_digits i2) hd
    exact ⟨String.ext hw, repr_injective (String.ext hs)⟩
  · rintro ⟨rfl, rfl⟩
    rfl

/-- C10: `checkpoint_complete` changes only the `status`, `output_data`
and `updated_at` fields and `checkpoint_failed` changes only the `status`,
`error` and `updated_at` fields; `id`, `workflow_id`, `step_name`,
`step_index`, `input_data`, `created_at` and `metadata` are unchanged on
the returned record, and the persisted copy is exactly that record,
upserted under the unchanged id. -/
theorem c10_complete_failed_frame (b : MemoryCheckpointBackend)
    (cp : Checkpoint) (out : JsonObj) (e : String) (t : Nat) :
    ((Checkpointer.checkpoint_complete b cp out t).2.id = cp.id ∧
     (Checkpointer.checkpoint_complete b cp out t).2.workflow_id =
       cp.workflow_id ∧
     (Checkpointer.checkpoint_complete b cp out t).2.step_name =
       cp.step_name ∧
     (Checkpointer.checkpoint_complete b cp out t).2.step_index =
       cp.step_index ∧
     (Checkpointer.checkpoint_complete b cp out t).2.input_data =
       cp.input_data ∧
     (Checkpointer.checkpoint_complete b cp out t).2.created_at =
       cp.created_at ∧
     (Checkpointer.checkpoint_complete b cp out t).2.metadata =
       cp.metadata ∧
     (Checkpointer.checkpoint_complete b cp out t).2.error = cp.error ∧
     (Checkpointer.checkpoint_complete b cp out t).2.status = .completed ∧
     (Checkpointer.checkpoint_complete b cp out t).2.output_data =
       some out ∧
     (Checkpointer.checkpoint_complete b cp out t).2.updated_at = t) ∧
    ((Checkpointer.checkpoint_failed b cp e t).2.id = cp.id ∧
     (Checkpointer.checkpoint_failed b cp e t).2.workflow_id =
       cp.workflow_id ∧
     (Checkpointer.checkpoint_failed b cp e t).2.step_name = cp.step_name ∧
     (Checkpointer.checkpoint_failed b cp e t).2.step_index =
       cp.step_index ∧
     (Checkpointer.checkpoint_failed b cp e t).2.input_data =
       cp.input_data ∧
     (Checkpointer.checkpoint_failed b cp e t).2.created_at =
       cp.created_at ∧
     (Checkpointer.checkpoint_failed b cp e t).2.metadata = cp.metadata ∧
     (Checkpointer.checkpoint_failed b cp e t).2.output_data =
       cp.output_data ∧
     (Checkpointer.checkpoint_failed b cp e t).2.status = .failed ∧
     (Checkpointer.checkpoint_failed b cp e t).2.error = some e ∧
     (Checkpointer.checkpoint_failed b cp e t).2.updated_at = t) ∧
    (Checkpointer.checkpoint_complete b cp out t).1.checkpoints =
      dictInsert cp.id (Checkpointer.checkpoint_complete b cp out t).2
        b.checkpoints ∧
    (Checkpointer.checkpoint_failed b cp e t).1.checkpoints =
      dictInsert cp.id (Checkpointer.checkpoint_failed b cp e t).2
        b.checkpoints :=
  ⟨⟨rfl, rfl, rfl, rfl, rfl, rfl, rfl, rfl, rfl, rfl, rfl⟩,
   ⟨rfl, rfl, rfl, rfl, rfl, rfl, rfl, rfl, rfl, rfl, rfl⟩, rfl, rfl⟩

/-- C4 counterexample: `failedCheckpoint` satisfies the
`error`-iff-`FAILED` contract, yet `checkpoint_complete` applied to it
produces a `COMPLETED` record whose `error` is still populated — the
contract is not preserved by every operation from every contract-satisfying
record. -/
theorem c4_counterexample :
    ErrorIffFailed failedCheckpoint ∧
    ¬ ErrorIffFailed
      (Checkpointer.checkpoint_complete ⟨[]⟩ failedCheckpoint [] 1).2 := by
  constructor
  · simp [ErrorIffFailed, failedCheckpoint]
  · simp [ErrorIffFailed, Checkpointer.checkpoint_complete,
      MemoryCheckpointBackend.save, failedCheckpoint]

/-- C4 (amended): `checkpoint_start` and `checkpoint_failed` always
establish the `error`-iff-`FAILED` contract, and `checkpoint_complete` and
`mark_recovered` preserve it for every starting record whose status is not
`FAILED`; applied to a `FAILED` record they retain the stale error on a
non-`FAILED` record, so the unconditional preservation claimed by the spec
does not hold. -/
theorem c4_error_iff_failed_amended :
    (∀ (b : MemoryCheckpointBackend) (wf sn : String) (idx : Nat)
       (input : JsonObj) (m : Option JsonObj) (t : Nat),
       ErrorIffFailed
         (Checkpointer.checkpoint_start b wf sn idx input m t).2) ∧
    (∀ (b : MemoryCheckpointBackend) (cp : Checkpoint) (e : String)
       (t : Nat),
       ErrorIffFailed (Checkpointer.checkpoint_failed b cp e t).2) ∧
    (∀ (b : MemoryCheckpointBackend) (cp : Checkpoint) (out : JsonObj)
       (t : Nat), ErrorIffFailed cp → cp.status ≠ .failed →
       ErrorIffFailed (Checkpointer.checkpoint_complete b cp out t).2) ∧
    (∀ (b : MemoryCheckpointBackend) (cp : Checkpoint) (t : Nat),
       ErrorIffFailed cp → cp.status ≠ .failed →
       ErrorIffFailed (Checkpointer.mark_recovered b cp t).2) := by
  refine ⟨?_, ?_, ?_, ?_⟩
  · intro b wf sn idx input m t
    simp [ErrorIffFailed, Checkpointer.checkpoint_start,
      MemoryCheckpointBackend.save]
  · intro b cp e t
    simp [ErrorIffFailed, Checkpointer.checkpoint_failed,
      MemoryCheckpointBackend.save]
  · intro b cp out t hinv hst
    have herr : cp.error = none := by
      by_contra hne
      exact hst (hinv.mp hne)
    simp [ErrorIffFailed, Checkpointer.checkpoint_complete,
      MemoryCheckpointBackend.save, herr]
  · intro b cp t hinv hst
    have herr : cp.error = none := by
      by_contra hne
      exact hst (hinv.mp hne)
    simp [ErrorIffFailed, Checkpointer.mark_recovered,
      MemoryCheckpointBackend.save, herr]

/-- Witness for the amended C4: completing an in-progress record with no
error keeps the contract. -/
theorem c4_error_iff_failed_witness :
    ErrorIffFailed
      (Checkpointer.checkpoint_complete ⟨[]⟩ inProgressCheckpoint [] 5).2 := by
  apply c4_error_iff_failed_amended.2.2.1
  · simp [ErrorIffFailed, inProgressCheckpoint]
  · simp [inProgressCheckpoint]

/-- C3 (amended): for the SQLite backend, `save` followed by `load` of the
id returns the saved record with `updated_at` refreshed and every other
field equal, except that a Python-falsy `output_data` (absent or the empty
map) is stored as NULL and loads back as absent: an absent `output_data`
round-trips to absent, but an empty map comes back absent rather than
equal. -/
theorem c3_save_load_roundtrip (db : SQLiteCheckpointBackend)
    (cp : Checkpoint) (now : Nat) :
    (SQLiteCheckpointBackend.save db cp now).1.load cp.id =
      some { cp with
        updated_at := now,
        output_data :=
          if pyTruthy cp.output_data then cp.output_data else none } := by
  obtain ⟨id, wf, sn, si, st, input, out, err, ca, ua, md⟩ := cp
  simp only [SQLiteCheckpointBackend.save, SQLiteCheckpointBackend.load]
  rw [find?_rowInsert_key _ id rfl db.rows]
  simp only [SQLiteCheckpointBackend.row_to_checkpoint, ofValue_value]
  cases out with
  | none => rfl
  | some o =>
      cases o with
      | nil => rfl
      | cons x xs => rfl

/-- C3 counterexample: saving `emptyOutputCheckpoint` (whose `output_data`
is the *empty* map `some []`) and loading it back yields
`output_data = none` — a different value, refuting the unconditional
equal-round-trip claim. -/
theorem c3_counterexample :
    ((SQLiteCheckpointBackend.save ⟨[]⟩ emptyOutputCheckpoint 1).1.load
        "w_step_0").map (fun r => r.output_data) = some none ∧
    emptyOutputCheckpoint.output_data = some [] ∧
    some ([] : JsonObj) ≠ (none : Option JsonObj) := by
  refine ⟨rfl, rfl, ?_⟩
  simp

/-- C2 counterexample: two `checkpoint_start` calls for the same
`(workflow_id, step_index)` at clocks 0 and 1 leave a stored record whose
`created_at` is 1 — the second call's clock, not the first's — refuting
the claim that `created_at` is preserved across `start` overwrites. -/
theorem c2_counterexample :
    ((Checkpointer.checkpoint_start
          (Checkpointer.checkpoint_start ⟨[]⟩ "wf" "s1" 0 [] none 0).1
          "wf" "s2" 0 [] none 1).1.load
        (Checkpointer.generate_checkpoint_id "wf" 0)).map
      (fun cp => cp.created_at) = some 1 ∧ (1 : Nat) ≠ 0 :=
  ⟨rfl, by decide⟩

/-- C2 (amended): a second `start` call with the same
`(workflow_id, step_index)` overwrites the record — exactly one record with
that id remains, carrying the second call's field values — but its
`created_at` is the *second* call's construction time, not the first's:
each `start` builds a fresh record and the upsert replaces the old one
wholesale. -/
theorem c2_start_overwrite_amended (b : MemoryCheckpointBackend)
    (hwf : b.WF) (wf sn1 sn2 : String) (idx : Nat) (in1 in2 : JsonObj)
    (m1 m2 : Option JsonObj) (t1 t2 : Nat) :
    (Checkpointer.checkpoint_start
        (Checkpointer.checkpoint_start b wf sn1 idx in1 m1 t1).1
        wf sn2 idx in2 m2 t2).1.checkpoints.filter
      (fun kv => kv.1 == Checkpointer.generate_checkpoint_id wf idx) =
      [(Checkpointer.generate_checkpoint_id wf idx,
        (Checkpointer.checkpoint_start
          (Checkpointer.checkpoint_start b wf sn1 idx in1 m1 t1).1
          wf sn2 idx in2 m2 t2).2)] ∧
    (Checkpointer.checkpoint_start
        (Checkpointer.checkpoint_start b wf sn1 idx in1 m1 t1).1
        wf sn2 idx in2 m2 t2).2.created_at = t2 ∧
    (Checkpointer.checkpoint_start
        (Checkpointer.checkpoint_start b wf sn1 idx in1 m1 t1).1
        wf sn2 idx in2 m2 t2).2.updated_at = t2 ∧
    (Checkpointer.checkpoint_start
        (Checkpointer.checkpoint_start b wf sn1 idx in1 m1 t1).1
        wf sn2 idx in2 m2 t2).2.step_name = sn2 ∧
    (Checkpointer.checkpoint_start
        (Checkpointer.checkpoint_start b wf sn1 idx in1 m1 t1).1
        wf sn2 idx in2 m2 t2).2.input_data = in2 ∧
    (Checkpointer.checkpoint_start
        (Checkpointer.checkpoint_start b wf sn1 idx in1 m1 t1).1
        wf sn2 idx in2 m2 t2).2.metadata = m2.getD [] ∧
    (Checkpointer.checkpoint_start
        (Checkpointer.checkpoint_start b wf sn1 idx in1 m1 t1).1
        wf sn2 idx in2 m2 t2).2.status = .in_progress := by
  refine ⟨?_, rfl, rfl, rfl, rfl, rfl, rfl⟩
  have h1 : (((Checkpointer.checkpoint_start b wf sn1 idx in1 m1
      t1).1.checkpoints).map Prod.fst).Nodup := nodup_keys_dictInsert hwf
  exact filter_dictInsert_self h1

/-- C6: `get_incomplete_workflows` returns exactly the set of workflow ids
having at least one checkpoint whose status is `PENDING` or `IN_PROGRESS`
— for the memory backend (via the Checkpointer) and for the SQLite query —
and a workflow all of whose checkpoints are `COMPLETED` or `FAILED` is not
reported as incomplete. -/
theorem c6_incomplete_workflows (b : MemoryCheckpointBackend)
    (db : SQLiteCheckpointBackend) (wfid : String) :
    (wfid ∈ Checkpointer.get_incomplete_workflows b ↔
      ∃ cp ∈ b.values, cp.workflow_id = wfid ∧
        (cp.status = .pending ∨ cp.status = .in_progress)) ∧
    ((∀ cp ∈ b.values, cp.workflow_id = wfid →
        cp.status = .completed ∨ cp.status = .failed) →
      wfid ∉ Checkpointer.get_incomplete_workflows b) ∧
    (wfid ∈ db.get_incomplete_workflows ↔
      ∃ row ∈ db.rows, row.workflow_id = wfid ∧
        (row.status = "pending" ∨ row.status = "in_progress")) := by
  have h1 : wfid ∈ Checkpointer.get_incomplete_workflows b ↔
      ∃ cp ∈ b.values, cp.workflow_id = wfid ∧
        (cp.status = .pending ∨ cp.status = .in_progress) := by
    simp only [Checkpointer.get_incomplete_workflows,
      MemoryCheckpointBackend.get_incomplete_workflows, List.mem_dedup,
      List.mem_map, List.mem_filter, decide_eq_true_eq]
    constructor
    · rintro ⟨cp, ⟨hm, hs⟩, rfl⟩
      exact ⟨cp, hm, rfl, hs⟩
    · rintro ⟨cp, hm, rfl, hs⟩
      exact ⟨cp, ⟨hm, hs⟩, rfl⟩
  refine ⟨h1, ?_, ?_⟩
  · intro hall hmem
    obtain ⟨cp, hm, hwf, hs⟩ := h1.mp hmem
    rcases hall cp hm hwf with h | h <;> rcases hs with h' | h' <;>
      rw [h] at h' <;> cases h'
  · simp only [SQLiteCheckpointBackend.get_incomplete_workflows,
      List.mem_dedup, List.mem_map, List.mem_filter, Bool.or_eq_true,
      beq_iff_eq]
    constructor
    · rintro ⟨row, ⟨hm, hs⟩, rfl⟩
      exact ⟨row, hm, rfl, hs⟩
    · rintro ⟨row, hm, rfl, hs⟩
      exact ⟨row, ⟨hm, hs⟩, rfl⟩

/-- Witness for C6 at a concrete state: the workflow with an in-progress
checkpoint is reported incomplete. -/
theorem c6_incomplete_workflows_witness :
    "w" ∈ Checkpointer.get_incomplete_workflows
      ⟨[("w_step_1", inProgressCheckpoint)]⟩ :=
  (c6_incomplete_workflows ⟨[("w_step_1", inProgressCheckpoint)]⟩ ⟨[]⟩
    "w").1.mpr
    ⟨inProgressCheckpoint, by simp [MemoryCheckpointBackend.values],
      rfl, Or.inr rfl⟩

/-- C5: the scoped context finalizes its checkpoint exactly once per
scope, by the exit path taken: a normal exit with a recorded output
completes the checkpoint with that output; a normal exit with no recorded
output completes it with the empty output map; an exceptional exit fails
it with the exception's message; the context never suppresses the
exception (the exit handler always returns `false`); the backend changes
at exactly the one checkpoint id of the scope; and the asynchronous
variant is the synchronous one. -/
theorem c5_context_finalization (b b1 b2 : MemoryCheckpointBackend)
    (ctx : CheckpointContext) (wf sn : String) (idx : Nat)
    (input : JsonObj) (m : Option JsonObj) (out : Option JsonObj)
    (exc : Option String) (t1 t2 : Nat) (suppress : Bool)
    (henter : CheckpointContext.enter b wf sn idx input m t1 = (b1, ctx))
    (hexit : CheckpointContext.exit { ctx with output := out } exc b1 t2 =
      (b2, suppress)) :
    suppress = false ∧
    CheckpointContext.aexit { ctx with output := out } exc b1 t2 =
      (b2, suppress) ∧
    (∀ id', id' ≠ Checkpointer.generate_checkpoint_id wf idx →
      b2.load id' = b1.load id') ∧
    ∃ fin : Checkpoint,
      b2.checkpoints =
        dictInsert (Checkpointer.generate_checkpoint_id wf idx) fin
          b1.checkpoints ∧
      b2.load (Checkpointer.generate_checkpoint_id wf idx) = some fin ∧
      fin.workflow_id = wf ∧ fin.step_name = sn ∧ fin.step_index = idx ∧
      fin.input_data = input ∧ fin.created_at = t1 ∧
      fin.updated_at = t2 ∧
      (match exc with
       | some msg => fin.status = .failed ∧ fin.error = some msg
       | none =>
           fin.status = .completed ∧ fin.error = none ∧
             fin.output_data = some (out.getD [])) := by
  injection henter with hb1 hctx
  subst hb1
  subst hctx
  cases exc with
  | some msg =>
      injection hexit with hb2 hsup
      subst hb2
      subst hsup
      refine ⟨rfl, rfl, ?_, ?_⟩
      · intro id' hne
        simp only [MemoryCheckpointBackend.load,
          Checkpointer.checkpoint_failed, Checkpointer.checkpoint_start,
          MemoryCheckpointBackend.save, CheckpointContext.enter]
        rw [find?_dictInsert_ne hne]
      · refine ⟨_, rfl, ?_, rfl, rfl, rfl, rfl, rfl, rfl, rfl, rfl⟩
        simp only [MemoryCheckpointBackend.load,
          Checkpointer.checkpoint_failed, Checkpointer.checkpoint_start,
          MemoryCheckpointBackend.save, CheckpointContext.enter]
        rw [find?_dictInsert_key _ _ _ rfl]
        rfl
  | none =>
      cases out with
      | some o =>
          injection hexit with hb2 hsup
          subst hb2
          subst hsup
          refine ⟨rfl, rfl, ?_, ?_⟩
          · intro id' hne
            simp only [MemoryCheckpointBackend.load,
              Checkpointer.checkpoint_complete,
              Checkpointer.checkpoint_start,
              MemoryCheckpointBackend.save, CheckpointContext.enter]
            rw [find?_dictInsert_ne hne]
          · refine ⟨_, rfl, ?_, rfl, rfl, rfl, rfl, rfl, rfl, rfl, rfl,
              rfl⟩
            simp only [MemoryCheckpointBackend.load,
              Checkpointer.checkpoint_complete,
              Checkpointer.checkpoint_start,
              MemoryCheckpointBackend.save, CheckpointContext.enter]
            rw [find?_dictInsert_key _ _ _ rfl]
            rfl
      | none =>
          injection hexit with hb2 hsup
          subst hb2
          subst hsup
          refine ⟨rfl, rfl, ?_, ?_⟩
          · intro id' hne
            simp only [MemoryCheckpointBackend.load,
              Checkpointer.checkpoint_complete,
              Checkpointer.checkpoint_start,
              MemoryCheckpointBackend.save, CheckpointContext.enter]
            rw [find?_dictInsert_ne hne]
          · refine ⟨_, rfl, ?_, rfl, rfl, rfl, rfl, rfl, rfl, rfl, rfl,
              rfl⟩
            simp only [MemoryCheckpointBackend.load,
              Checkpointer.checkpoint_complete,
              Checkpointer.checkpoint_start,
              MemoryCheckpointBackend.save, CheckpointContext.enter]
            rw [find?_dictInsert_key _ _ _ rfl]
            rfl

/-- Witness for C5: an exceptional exit at a concrete scope does not
suppress the exception. -/
theorem c5_context_finalization_witness :
    (CheckpointContext.exit
        { (CheckpointContext.enter ⟨[]⟩ "w" "s" 0 [] none 0).2 with
            output := none }
        (some "boom") (CheckpointContext.enter ⟨[]⟩ "w" "s" 0 [] none 0).1
        1).2 = false :=
  (c5_context_finalization ⟨[]⟩ _ _ _ "w" "s" 0 [] none none (some "boom")
    0 1 _ rfl rfl).1

/-- C7: `list_workflow_checkpoints` returns exactly the stored
checkpoints whose workflow id matches (a permutation of them), sorted
ascending by `step_index` regardless of insertion order, and
`get_last_checkpoint` returns an entry of maximal `step_index` or absent
when the workflow has no checkpoints; likewise for the SQLite backend's
queries at row level. -/
theorem c7_list_and_last (b : MemoryCheckpointBackend)
    (db : SQLiteCheckpointBackend) (wf : String) :
    (b.list_workflow_checkpoints wf).Perm
      (b.values.filter (fun cp => cp.workflow_id == wf)) ∧
    (b.list_workflow_checkpoints wf).Pairwise
      (fun x y => x.step_index ≤ y.step_index) ∧
    (b.get_last_checkpoint wf = none ↔
      b.values.filter (fun cp => cp.workflow_id == wf) = []) ∧
    (∀ c, b.get_last_checkpoint wf = some c →
      c ∈ b.values.filter (fun cp => cp.workflow_id == wf) ∧
      c.workflow_id = wf ∧
      ∀ d ∈ b.values.filter (fun cp => cp.workflow_id == wf),
        d.step_index ≤ c.step_index) ∧
    (db.query_workflow_rows wf).Perm
      (db.rows.filter (fun r => r.workflow_id == wf)) ∧
    (db.query_workflow_rows wf).Pairwise
      (fun x y => x.step_index ≤ y.step_index) ∧
    (db.get_last_row wf = none ↔
      db.rows.filter (fun r => r.workflow_id == wf) = []) ∧
    (∀ r, db.get_last_row wf = some r →
      r ∈ db.rows.filter (fun x => x.workflow_id == wf) ∧
      r.workflow_id = wf ∧
      ∀ x ∈ db.rows.filter (fun x => x.workflow_id == wf),
        x.step_index ≤ r.step_index) := by
  have hperm := list_workflow_checkpoints_perm b wf
  refine ⟨hperm, list_workflow_checkpoints_pairwise b wf, ?_, ?_, ?_, ?_,
    ?_, ?_⟩
  · rw [MemoryCheckpointBackend.get_last_checkpoint,
      List.getLast?_eq_none_iff]
    constructor
    · intro h
      have hlen := hperm.length_eq
      rw [h] at hlen
      simpa [List.length_eq_zero] using hlen.symm
    · intro h
      have hlen := hperm.length_eq
      rw [h] at hlen
      simpa [List.length_eq_zero] using hlen
  · intro c hc
    obtain ⟨hmem, hmax⟩ := getLast?_step_index_max hc
    have hmem' : c ∈ b.values.filter (fun cp => cp.workflow_id == wf) :=
      (List.mem_insertionSort _).mp hmem
    have hwfid : c.workflow_id = wf := by
      have := (List.mem_filter.mp hmem').2
      simpa [beq_iff_eq] using this
    refine ⟨hmem', hwfid, ?_⟩
    intro d hd
    exact hmax d ((List.mem_insertionSort _).mpr hd)
  · exact List.perm_insertionSort _ _
  · exact List.sorted_insertionSort _ _
  · rw [SQLiteCheckpointBackend.get_last_row, List.head?_eq_none_iff]
    exact insertionSort_eq_nil_iff _ _
  · intro r hr
    have hmemS : r ∈ List.insertionSort
        (fun x y : SQLiteRow => y.step_index ≤ x.step_index)
        (db.rows.filter (fun x => x.workflow_id == wf)) :=
      mem_of_head? hr
    have hmem : r ∈ db.rows.filter (fun x => x.workflow_id == wf) :=
      (List.mem_insertionSort _).mp hmemS
    have hwfid : r.workflow_id = wf := by
      have := (List.mem_filter.mp hmem).2
      simpa [beq_iff_eq] using this
    refine ⟨hmem, hwfid, ?_⟩
    intro x hx
    have hp : (List.insertionSort
        (fun x y : SQLiteRow => y.step_index ≤ x.step_index)
        (db.rows.filter (fun x => x.workflow_id == wf))).Pairwise
        (fun a c => c.step_index ≤ a.step_index) :=
      List.sorted_insertionSort _ _
    exact head?_measure_max (fun z => z.step_index) hp hr x
      ((List.mem_insertionSort _).mpr hx)

/-- Witness for C7 at a concrete state: the scenario's checkpoint list is
sorted ascending. -/
theorem c7_list_and_last_witness :
    (scenarioBackend.list_workflow_checkpoints "w").Pairwise
      (fun x y => x.step_index ≤ y.step_index) :=
  (c7_list_and_last scenarioBackend ⟨[]⟩ "w").2.1

/-- C8: `cleanup_workflow` for a workflow with N stored checkpoints
returns N, afterwards the workflow's checkpoint list is empty while every
other workflow's list is unchanged, and an immediately repeated call
returns 0. -/
theorem c8_cleanup_workflow (b : MemoryCheckpointBackend) (hwf : b.WF)
    (wf : String) :
    (Checkpointer.cleanup_workflow b wf).2 =
      (b.values.filter (fun cp => cp.workflow_id == wf)).length ∧
    Checkpointer.list_checkpoints
      (Checkpointer.cleanup_workflow b wf).1 wf = [] ∧
    (∀ wf', wf' ≠ wf →
      Checkpointer.list_checkpoints
        (Checkpointer.cleanup_workflow b wf).1 wf' =
      Checkpointer.list_checkpoints b wf') ∧
    (Checkpointer.cleanup_workflow
      (Checkpointer.cleanup_workflow b wf).1 wf).2 = 0 := by
  refine ⟨?_, ?_, ?_, ?_⟩
  · simp only [Checkpointer.cleanup_workflow,
      MemoryCheckpointBackend.delete_workflow_checkpoints,
      MemoryCheckpointBackend.to_delete, MemoryCheckpointBackend.values,
      List.filter_map, List.length_map]
    rfl
  · have h0 := delete_filter_matching b wf
    simp only [Checkpointer.list_checkpoints,
      MemoryCheckpointBackend.list_workflow_checkpoints,
      MemoryCheckpointBackend.values, List.filter_map]
    rw [show (Checkpointer.cleanup_workflow b wf).1.checkpoints.filter
        ((fun cp => cp.workflow_id == wf) ∘ Prod.snd) = [] from h0]
    rfl
  · intro wf' hne
    simp only [Checkpointer.list_checkpoints,
      MemoryCheckpointBackend.list_workflow_checkpoints,
      MemoryCheckpointBackend.values]
    rw [show (Checkpointer.cleanup_workflow b wf).1.checkpoints =
        b.checkpoints.filter (fun kv => !(kv.2.workflow_id == wf)) from
      delete_eq_value_filter b hwf wf]
    rw [List.filter_map, List.filter_map]
    rw [filter_filter_of_imp _ _ ?_ b.checkpoints]
    intro kv hq
    have : kv.2.workflow_id = wf' := by
      simpa [Function.comp, beq_iff_eq] using hq
    have hne' : kv.2.workflow_id ≠ wf := by
      rw [this]
      exact hne
    simp [beq_false_of_ne hne']
  · have h0 := delete_filter_matching b wf
    simp only [MemoryCheckpointBackend.delete_workflow_checkpoints,
      MemoryCheckpointBackend.to_delete] at h0
    simp only [Checkpointer.cleanup_workflow,
      MemoryCheckpointBackend.delete_workflow_checkpoints,
      MemoryCheckpointBackend.to_delete]
    rw [h0]
    rfl

/-- Witness for C8 at the concrete scenario state (two checkpoints). -/
theorem c8_cleanup_workflow_witness :
    (Checkpointer.cleanup_workflow scenarioBackend "w").2 =
      (scenarioBackend.values.filter
        (fun cp => cp.workflow_id == "w")).length :=
  (c8_cleanup_workflow scenarioBackend
    (show ((scenarioBackend.checkpoints.map Prod.fst)).Nodup by decide)
    "w").1

/-- C1: `get_recovery_point` implements the four-branch recovery algorithm
over the ascending-by-`step_index` checkpoint list of the workflow:
`MANUAL` always returns absent; an empty list returns absent;
`RESUME_FROM_LAST` returns a greatest-`step_index` checkpoint;
`RESTART_TASK` returns the greatest-`step_index` checkpoint whose status is
`FAILED` or `IN_PROGRESS`, falling back to a greatest-`step_index`
checkpoint when none match; `SKIP_FAILED` returns the
greatest-`step_index` `COMPLETED` checkpoint, and absent when none is
`COMPLETED` even if checkpoints exist. -/
theorem c1_get_recovery_point (mode : RecoveryMode)
    (b : MemoryCheckpointBackend) (wf : String) :
    (mode = .manual → Checkpointer.get_recovery_point mode b wf = none) ∧
    (b.list_workflow_checkpoints wf = [] →
      Checkpointer.get_recovery_point mode b wf = none) ∧
    (mode = .resume_from_last → b.list_workflow_checkpoints wf ≠ [] →
      ∃ c, Checkpointer.get_recovery_point mode b wf = some c ∧
        c ∈ b.list_workflow_checkpoints wf ∧
        ∀ d ∈ b.list_workflow_checkpoints wf,
          d.step_index ≤ c.step_index) ∧
    (mode = .restart_task → b.list_workflow_checkpoints wf ≠ [] →
      ∃ c, Checkpointer.get_recovery_point mode b wf = some c ∧
        c ∈ b.list_workflow_checkpoints wf ∧
        ((Checkpointer.retryPred c = true ∧
          ∀ d ∈ b.list_workflow_checkpoints wf,
            Checkpointer.retryPred d = true →
              d.step_index ≤ c.step_index) ∨
         ((∀ d ∈ b.list_workflow_checkpoints wf,
            Checkpointer.retryPred d = false) ∧
          ∀ d ∈ b.list_workflow_checkpoints wf,
            d.step_index ≤ c.step_index))) ∧
    (mode = .skip_failed →
      ((∀ d ∈ b.list_workflow_checkpoints wf, d.status ≠ .completed) →
        Checkpointer.get_recovery_point mode b wf = none) ∧
      ((∃ d ∈ b.list_workflow_checkpoints wf, d.status = .completed) →
        ∃ c, Checkpointer.get_recovery_point mode b wf = some c ∧
          c ∈ b.list_workflow_checkpoints wf ∧ c.status = .completed ∧
          ∀ d ∈ b.list_workflow_checkpoints wf, d.status = .completed →
            d.step_index ≤ c.step_index) ∧
      (∀ c, Checkpointer.get_recovery_point mode b wf = some c →
        c ∈ b.list_workflow_checkpoints wf ∧ c.status = .completed ∧
        ∀ d ∈ b.list_workflow_checkpoints wf, d.status = .completed →
          d.step_index ≤ c.step_index)) := by
  have hrevpair : (b.list_workflow_checkpoints wf).reverse.Pairwise
      (fun a c => c.step_index ≤ a.step_index) := by
    rw [List.pairwise_reverse]
    exact list_workflow_checkpoints_pairwise b wf
  refine ⟨?_, ?_, ?_, ?_, ?_⟩
  · intro h
    subst h
    simp [Checkpointer.get_recovery_point]
  · intro hemp
    by_cases hm : mode = .manual
    · subst hm
      simp [Checkpointer.get_recovery_point]
    · simp [Checkpointer.get_recovery_point, hm, hemp]
  · intro h hne
    subst h
    obtain ⟨c, hc⟩ := getLast?_some_of_ne_nil hne
    obtain ⟨hmem, hmax⟩ := getLast?_step_index_max hc
    refine ⟨c, ?_, hmem, hmax⟩
    simp only [Checkpointer.get_recovery_point]
    rw [if_neg (by decide),
      if_neg (by simpa [List.isEmpty_iff] using hne), if_pos (by trivial)]
    exact hc
  · intro h hne
    subst h
    simp only [Checkpointer.get_recovery_point]
    rw [if_neg (by decide),
      if_neg (by simpa [List.isEmpty_iff] using hne),
      if_neg (by decide), if_pos (by trivial)]
    cases hf : (b.list_workflow_checkpoints wf).reverse.find?
        Checkpointer.retryPred with
    | some c =>
        refine ⟨c, rfl,
          List.mem_reverse.mp (List.mem_of_find?_eq_some hf),
          Or.inl ⟨List.find?_some hf, ?_⟩⟩
        intro d hd hpd
        exact find?_measure_max (fun x => x.step_index) hrevpair hf d
          (List.mem_reverse.mpr hd) hpd
    | none =>
        obtain ⟨c, hc⟩ := getLast?_some_of_ne_nil hne
        obtain ⟨hmem, hmax⟩ := getLast?_step_index_max hc
        refine ⟨c, hc, hmem, Or.inr ⟨?_, hmax⟩⟩
        intro d hd
        have hnd := List.find?_eq_none.mp hf d (List.mem_reverse.mpr hd)
        cases hb : Checkpointer.retryPred d with
        | false => rfl
        | true => exact absurd hb hnd
  · intro h
    subst h
    refine ⟨?_, ?_, ?_⟩
    · intro hnone
      by_cases hemp : b.list_workflow_checkpoints wf = []
      · simp [Checkpointer.get_recovery_point, hemp]
      · simp only [Checkpointer.get_recovery_point]
        rw [if_neg (by decide),
          if_neg (by simpa [List.isEmpty_iff] using hemp),
          if_neg (by decide), if_neg (by decide), if_pos (by trivial)]
        apply List.find?_eq_none.mpr
        intro x hx
        simp only [decide_eq_true_eq]
        exact hnone x (List.mem_reverse.mp hx)
    · rintro ⟨d0, hd0, hd0s⟩
      have hemp : b.list_workflow_checkpoints wf ≠ [] := by
        intro h0
        rw [h0] at hd0
        cases hd0
      have hred : Checkpointer.get_recovery_point .skip_failed b wf =
          (b.list_workflow_checkpoints wf).reverse.find?
            (fun cp => decide (cp.status = .completed)) := by
        simp only [Checkpointer.get_recovery_point]
        rw [if_neg (by decide),
          if_neg (by simpa [List.isEmpty_iff] using hemp),
          if_neg (by decide), if_neg (by decide), if_pos (by trivial)]
      cases hf : (b.list_workflow_checkpoints wf).reverse.find?
          (fun cp => decide (cp.status = .completed)) with
      | none =>
          exfalso
          have hnd := List.find?_eq_none.mp hf d0
            (List.mem_reverse.mpr hd0)
          exact hnd (by simpa [decide_eq_true_eq] using hd0s)
      | some c =>
          refine ⟨c, by rw [hred, hf],
            List.mem_reverse.mp (List.mem_of_find?_eq_some hf), ?_, ?_⟩
          · have := List.find?_some hf
            simpa [decide_eq_true_eq] using this
          · intro d hd hds
            exact find?_measure_max (fun x => x.step_index) hrevpair hf d
              (List.mem_reverse.mpr hd)
              (by simpa [decide_eq_true_eq] using hds)
    · intro c hc
      by_cases hemp : b.list_workflow_checkpoints wf = []
      · have hn : Checkpointer.get_recovery_point .skip_failed b wf =
            none := by
          simp [Checkpointer.get_recovery_point, hemp]
        rw [hn] at hc
        cases hc
      · have hred : Checkpointer.get_recovery_point .skip_failed b wf =
            (b.list_workflow_checkpoints wf).reverse.find?
              (fun cp => decide (cp.status = .completed)) := by
          simp only [Checkpointer.get_recovery_point]
          rw [if_neg (by decide),
            if_neg (by simpa [List.isEmpty_iff] using hemp),
            if_neg (by decide), if_neg (by decide), if_pos (by trivial)]
        rw [hred] at hc
        have hmem := List.mem_reverse.mp (List.mem_of_find?_eq_some hc)
        have hcs : c.status = .completed := by
          have := List.find?_some hc
          simpa [decide_eq_true_eq] using this
        refine ⟨hmem, hcs, ?_⟩
        intro d hd hds
        exact find?_measure_max (fun x => x.step_index) hrevpair hc d
          (List.mem_reverse.mpr hd) (by simpa [decide_eq_true_eq] using hds)

/-- Witness for C1 at the spec's concrete scenario (step 0 `COMPLETED`,
step 1 `FAILED`): `MANUAL` returns absent, and `SKIP_FAILED` returns a
maximal-`step_index` `COMPLETED` checkpoint because one exists. -/
theorem c1_get_recovery_point_witness :
    Checkpointer.get_recovery_point .manual scenarioBackend "w" = none ∧
    ∃ c, Checkpointer.get_recovery_point .skip_failed scenarioBackend "w" =
        some c ∧
      c ∈ scenarioBackend.list_workflow_checkpoints "w" ∧
      c.status = .completed ∧
      ∀ d ∈ scenarioBackend.list_workflow_checkpoints "w",
        d.status = .completed → d.step_index ≤ c.step_index :=
  ⟨(c1_get_recovery_point .manual scenarioBackend "w").1 rfl,
   ((c1_get_recovery_point .skip_failed scenarioBackend "w").2.2.2.2
       rfl).2.1 ⟨_, List.mem_cons_self _ _, rfl⟩⟩

/-- Witness for the amended C2 at a concrete state. -/
theorem c2_start_overwrite_witness :
    (Checkpointer.checkpoint_start
        (Checkpointer.checkpoint_start ⟨[]⟩ "w" "a" 0 [] none 3).1
        "w" "b" 0 [] none 7).2.created_at = 7 :=
  (c2_start_overwrite_amended ⟨[]⟩
    (by simp [MemoryCheckpointBackend.WF]) "w" "a" "b" 0 [] [] none none
    3 7).2.1

end Autonomi
